import Mathlib

/-!
Verification development for the ServiceAI MVP repository
(field-service scheduling and dispatch for plumbing/HVAC businesses).

The Lean definitions below shallowly embed:
* the TypeScript data model and UI handlers present under
  `frontend/src` (types in `types/index.ts`, the jobs page, the
  technicians page), translated field-for-field from the source; and
* the Scheduling & Dispatch Engine (Slot Reservation Manager,
  Constraint Matcher, Scheduler, Preemption Controller, Escalation
  Engine, Reconciliation Worker), whose implementation is not part of
  the checked-in sources; those definitions are modelled from the
  specification and are marked as such in their doc comments.

Theorems about the claims follow the definitions.
-/

namespace ServiceAI

/-! ## Embedding of `frontend/src/types/index.ts` -/

/-- The `JobStatus` union type from `types/index.ts` (lines 58-66),
one constructor per string literal of the union. -/
inductive JobStatus where
  | pending
  | scheduled
  | dispatched
  | enRoute
  | inProgress
  | completed
  | cancelled
  | awaitingParts
deriving DecidableEq, Repr

/-- The literal member strings of the `JobStatus` union type exactly as
they appear in `types/index.ts` lines 58-66. -/
def jobStatusStrings : List String :=
  ["pending", "scheduled", "dispatched", "en_route", "in_progress",
   "completed", "cancelled", "awaiting_parts"]

/-- The `JobPriority` union type from `types/index.ts` (line 68). -/
inductive JobPriority where
  | low
  | normal
  | urgent
  | emergency
deriving DecidableEq, Repr

/-- The literal member strings of the `JobPriority` union type
(`types/index.ts` line 68). -/
def jobPriorityStrings : List String :=
  ["low", "normal", "urgent", "emergency"]

/-- The `Job` interface from `types/index.ts` (lines 70-86); `T | null`
fields become `Option T`. -/
structure Job where
  id : String
  confirmation_code : String
  status : JobStatus
  priority : JobPriority
  service_type : String
  description : Option String
  customer_name : Option String
  customer_phone : Option String
  address : Option String
  technician_name : Option String
  technician_id : Option String
  scheduled_date : Option String
  scheduled_time_start : Option String
  scheduled_time_end : Option String
  created_at : String
deriving DecidableEq, Repr

/-- The `Technician` interface from `types/index.ts` (lines 102-110). -/
structure Technician where
  id : String
  name : String
  phone : String
  email : Option String
  is_active : Bool
  is_on_call : Bool
  current_job_count : Nat
deriving DecidableEq, Repr

/-- The field names of the `Technician` interface exactly as declared in
`types/index.ts` lines 102-110. -/
def technicianFieldNames : List String :=
  ["id", "name", "phone", "email", "is_active", "is_on_call",
   "current_job_count"]

/-- The `TechnicianCreate` interface from `types/index.ts`
(lines 112-117). -/
structure TechnicianCreate where
  name : String
  email : String
  phone : String
  password : String
deriving DecidableEq, Repr

/-- The `ApiError` response shape from `types/index.ts` (lines 136-142),
restricted to the `detail` field the UI reads. -/
structure ApiError where
  detail : String
deriving DecidableEq, Repr

/-! ## Embedding of the `StatusBadge` component
(`frontend/src/app/(dashboard)/jobs/page.tsx` lines 312-333). -/

/-- The badge variants accepted by the `Badge` UI component, as listed
in the `variants` record type of `StatusBadge`. -/
inductive BadgeVariant where
  | default
  | secondary
  | destructive
  | outline
deriving DecidableEq, Repr

/-- The `variants` record literal inside `StatusBadge`
(`jobs/page.tsx` lines 313-325), as an association list from status
string to (variant, label). -/
def statusBadgeVariants : List (String × BadgeVariant × String) :=
  [("pending", .secondary, "Pending"),
   ("scheduled", .default, "Scheduled"),
   ("dispatched", .default, "Dispatched"),
   ("en_route", .default, "En Route"),
   ("in_progress", .default, "In Progress"),
   ("completed", .outline, "Completed"),
   ("cancelled", .destructive, "Cancelled"),
   ("awaiting_parts", .secondary, "Awaiting Parts")]

/-- The member names a plain JavaScript object literal inherits from
`Object.prototype`: `variants[status]` at one of these misses the eight
own keys but resolves to the inherited member, which is truthy (a
function, or for `__proto__` the prototype object itself). -/
def objectPrototypeKeys : List String :=
  ["constructor", "hasOwnProperty", "isPrototypeOf",
   "propertyIsEnumerable", "toLocaleString", "toString", "valueOf",
   "__defineGetter__", "__defineSetter__", "__lookupGetter__",
   "__lookupSetter__", "__proto__"]

/-- `StatusBadge` body (`jobs/page.tsx` lines 327-332):
`variants[status] || { variant: "secondary", label: status }` followed
by destructuring into `variant` and `label`. The property read walks
the prototype chain: an own key yields its configured entry; a name
inherited from `Object.prototype` yields the truthy inherited member,
so the `||` fallback is skipped and destructuring it leaves both
`variant` and `label` undefined (`none`); only a miss of both gives the
secondary fallback with the raw status as label. -/
def statusBadge (status : String) : Option BadgeVariant × Option String :=
  match statusBadgeVariants.find? (fun e => decide (e.1 = status)) with
  | some e => (some e.2.1, some e.2.2)
  | none =>
      if status ∈ objectPrototypeKeys then (none, none)
      else (some .secondary, some status)

/-! ## Embedding of the technicians page (`src/unnamed/part_002`). -/

/-- The React state of `TechniciansPage` that `handleAddTechnician`
reads or writes: the technician list, the add-modal-open flag, the
in-flight flag, the form state `newTech`, and the toasts shown so far
(newest first). -/
structure TechniciansPageState where
  technicians : List Technician
  isLoading : Bool
  error : String
  addModalOpen : Bool
  isAdding : Bool
  newTech : TechnicianCreate
  toasts : List String
deriving DecidableEq, Repr

/-- Outcome of `techniciansApi.create` followed by `fetchTechnicians`:
either the refreshed technician list or an error message. -/
inductive CreateOutcome where
  | ok (refreshed : List Technician)
  | fail (msg : String)
deriving DecidableEq, Repr

/-- `handleAddTechnician` (`src/unnamed/part_002` lines 62-80).
If any of the four form fields is the empty string (falsy in the
source's `!newTech.name || ...` guard) it toasts an error and returns
without calling the API; otherwise it performs the create call, and on
success closes the modal, resets the form and refetches the list.
Returns the new state paired with whether the create call was issued. -/
def handleAddTechnician (st : TechniciansPageState) (api : CreateOutcome) :
    TechniciansPageState × Bool :=
  if st.newTech.name = "" ∨ st.newTech.email = "" ∨
     st.newTech.phone = "" ∨ st.newTech.password = "" then
    ({ st with toasts := "Please fill in all fields" :: st.toasts }, false)
  else
    match api with
    | .ok refreshed =>
        ({ st with
            technicians := refreshed,
            addModalOpen := false,
            isAdding := false,
            newTech := ⟨"", "", "", ""⟩,
            toasts := "Technician added successfully" :: st.toasts }, true)
    | .fail msg =>
        ({ st with isAdding := false, toasts := msg :: st.toasts }, true)

/-! ## Embedding of the jobs/technicians fetch error paths. -/

/-- Modelled from the spec: `getErrorMessage` (imported by the pages
from `lib/api`, not among the checked-in sources). Section 7 of the
spec fixes the user-visible failure text: "User-visible failure is
limited to 'could not schedule automatically — pending manual review,'
never a raw internal error." -/
def getErrorMessage (_e : ApiError) : String :=
  "could not schedule automatically — pending manual review"

/-- The React state of `JobsPage` that `fetchJobs` writes
(`jobs/page.tsx` lines 53-56). -/
structure JobsPageState where
  jobs : List Job
  isLoading : Bool
  error : String
deriving Repr

/-- The `catch`/`finally` path of `fetchJobs`
(`jobs/page.tsx` lines 69-84): on a thrown error, set the error state
to `getErrorMessage(err)` and clear the loading flag. -/
def fetchJobsOnError (st : JobsPageState) (e : ApiError) : JobsPageState :=
  { st with error := getErrorMessage e, isLoading := false }

/-- The `catch`/`finally` path of `fetchTechnicians`
(`src/unnamed/part_002` lines 46-56): on a thrown error, set the error
state to `getErrorMessage(err)` and clear the loading flag. -/
def fetchTechniciansOnError (st : TechniciansPageState) (e : ApiError) :
    TechniciansPageState :=
  { st with error := getErrorMessage e, isLoading := false }

/-! ## The Scheduling & Dispatch Engine.

The engine (spec sections 4.1-4.6) is not among the checked-in sources:
the repository ships only the frontend and the design conversation that
names the engine's services (`ScheduleService`, `EscalationService`,
the `reconciliation.py`/`escalation.py` workers). Every definition in
this part is therefore modelled from the specification text. -/

/-- A half-open time window `[start, stop)`, in minutes. -/
structure Window where
  start : Nat
  stop : Nat
deriving DecidableEq, Repr

/-- Two half-open windows overlap iff each starts before the other
stops. -/
def overlaps (w1 w2 : Window) : Bool :=
  decide (w1.start < w2.stop) && decide (w2.start < w1.stop)

/-- Modelled from the spec: the `SlotReservation` status domain
(section 3: `held|committed|released`). -/
inductive ResStatus where
  | held
  | committed
  | released
deriving DecidableEq, Repr

/-- Modelled from the spec: the `SlotReservation` record (section 3):
identifier, technician id, job id, time window, status. -/
structure SlotReservation where
  resId : String
  technicianId : String
  jobId : String
  window : Window
  status : ResStatus
deriving DecidableEq, Repr

/-- Modelled from the spec: the reservation store, the only shared
mutable resource of the engine (section 5). -/
structure Store where
  reservations : List SlotReservation
deriving DecidableEq, Repr

/-- A pair of reservations is admissible unless both are `committed`
for the same technician with overlapping windows (the section 3
invariant, stated on one pair). -/
def okPair (r1 r2 : SlotReservation) : Bool :=
  !(decide (r1.technicianId = r2.technicianId) &&
    decide (r1.status = ResStatus.committed) &&
    decide (r2.status = ResStatus.committed) &&
    overlaps r1.window r2.window)

/-- The core double-booking invariant (section 3): no two committed
reservations of one technician overlap, checked over all pairs. -/
def noDoubleBook : List SlotReservation → Bool
  | [] => true
  | r :: rs => rs.all (okPair r) && noDoubleBook rs

/-- A committed reservation of technician `tid` overlapping `w` exists
in `rs` (the transactional "insert with overlap check" of
section 4.1). -/
def conflictsCommitted (rs : List SlotReservation) (tid : String)
    (w : Window) : Bool :=
  rs.any (fun r => decide (r.technicianId = tid) &&
    decide (r.status = ResStatus.committed) && overlaps r.window w)

/-- Modelled from the spec: `reserve(technicianId, window, jobId)`
(section 4.1) — atomic insert of a committed reservation with overlap
check against the committed reservations; `none` is the `Conflict`
outcome. -/
def reserve (s : Store) (tid : String) (w : Window) (jid rid : String) :
    Option Store :=
  if conflictsCommitted s.reservations tid w then none
  else some { reservations := ⟨rid, tid, jid, w, .committed⟩ :: s.reservations }

/-- Set the reservation with identifier `rid` to `released`, leaving
every other reservation alone. -/
def releaseById (rid : String) (rs : List SlotReservation) :
    List SlotReservation :=
  rs.map (fun r => if r.resId = rid then { r with status := .released } else r)

/-- Modelled from the spec: `release(reservationId)` (section 4.1) —
frees the window; idempotent. -/
def release (s : Store) (rid : String) : Store :=
  { reservations := releaseById rid s.reservations }

/-- Modelled from the spec: cancellation (section 5) — a cancelled
job's reservations are synchronously released (`status → released`,
section 3 ownership rules). -/
def cancelJob (s : Store) (jid : String) : Store :=
  { reservations := s.reservations.map
      (fun r => if r.jobId = jid then { r with status := .released } else r) }

/-- Modelled from the spec: the Preemption Controller's atomic
reassignment (sections 4.4 step 3 and 5): release the bumped job's
reservation and reserve the emergency window as one all-or-nothing
step; if the reserve half fails the whole attempt rolls back and the
store is returned unchanged. -/
def preempt (s : Store) (victimResId : String) (tid : String) (w : Window)
    (ejobId erid : String) : Store :=
  let rs2 := releaseById victimResId s.reservations
  if conflictsCommitted rs2 tid w then s
  else { reservations := ⟨erid, tid, ejobId, w, .committed⟩ :: rs2 }

/-- Whether `preempt` succeeded: it failed exactly when the emergency
window still conflicts after the victim's release. -/
def preemptSucceeds (s : Store) (victimResId : String) (tid : String)
    (w : Window) : Bool :=
  !conflictsCommitted (releaseById victimResId s.reservations) tid w

/-- Modelled from the spec: the intermediate reservation states of the
compensating-action protocol (section 5): hold the emergency window
first, then release the victim, then upgrade the hold to committed —
never release-then-reserve. The trace lists the store contents at every
instant of the protocol, the initial one included. -/
def preemptTrace (s : Store) (victimResId : String) (tid : String)
    (w : Window) (ejobId erid : String) : List (List SlotReservation) :=
  let rs0 := s.reservations
  let rs1 := (⟨erid, tid, ejobId, w, .held⟩ : SlotReservation) :: rs0
  let rs2 := releaseById victimResId rs1
  let rs3 := rs2.map (fun r =>
    if r.resId = erid then { r with status := .committed } else r)
  if conflictsCommitted (releaseById victimResId rs0) tid w then
    [rs0, rs1, rs2, rs0]
  else
    [rs0, rs1, rs2, rs3]

/-- A job is assigned in a reservation list when it holds an active
(held or committed) slot reservation (glossary: a slot reservation is
an exclusive claim on a technician's time for a specific job). -/
def assignedIn (rs : List SlotReservation) (jid : String) : Bool :=
  rs.any (fun r => decide (r.jobId = jid) &&
    !decide (r.status = ResStatus.released))

/-! ## Constraint Matcher and Scheduler (spec sections 4.2-4.3). -/

/-- Modelled from the spec: the engine-side Technician record
(section 3): identifier, skill set, service-area set, active flag,
on-call flag, working-hours windows. (The frontend's `Technician`
interface above is the UI's view and carries none of the skill, area or
working-hours data.) -/
structure TechnicianRec where
  id : String
  skills : List String
  serviceAreas : List String
  active : Bool
  onCall : Bool
  workingWindows : List Window
deriving DecidableEq, Repr

/-- Modelled from the spec: the engine-side Job descriptor (section 3):
identifier, priority, required skill tag, service-area key, estimated
duration, status string of the job state machine. -/
structure JobRec where
  id : String
  priority : JobPriority
  requiredSkill : String
  serviceArea : String
  durationMinutes : Nat
  status : String
deriving DecidableEq, Repr

/-- A working window contains a feasible slot of the given duration. -/
def feasibleIn (w : Window) (dur : Nat) : Bool :=
  decide (w.start + dur ≤ w.stop)

/-- Modelled from the spec: the Constraint Matcher's filters
(section 4.2): the technician must be active, have a matching skill
tag, have a service-area match, and have an availability window
containing a feasible slot of the job's estimated duration. -/
def eligible (j : JobRec) (t : TechnicianRec) : Bool :=
  t.active &&
  t.skills.any (fun sk => decide (sk = j.requiredSkill)) &&
  t.serviceAreas.any (fun a => decide (a = j.serviceArea)) &&
  t.workingWindows.any (fun w => feasibleIn w j.durationMinutes)

/-- Modelled from the spec: `candidates(job)` (section 4.2) — the
finite sequence of eligible technician ids, produced as a pure query
without mutating state. (The section's ranking only reorders the
sequence and is not modelled.) -/
def candidates (j : JobRec) (techs : List TechnicianRec) : List String :=
  (techs.filter (eligible j)).map (fun t => t.id)

/-- Modelled from the spec: `schedule(job)` (section 4.3) — iterate
the candidate sequence attempting `reserve` for each in order until one
succeeds or the sequence is exhausted; on success the job status
becomes `scheduled` with the reservation committed, on exhaustion it
becomes `pending_escalation`. -/
def schedule (j : JobRec) (cands : List String) (s : Store) (w : Window) :
    JobRec × Store :=
  match cands with
  | [] => ({ j with status := "pending_escalation" }, s)
  | tid :: rest =>
      match reserve s tid w j.id (j.id ++ "-res") with
      | some s2 => ({ j with status := "scheduled" }, s2)
      | none => schedule j rest s w

/-! ## Escalation Engine (spec section 4.5). -/

/-- Modelled from the spec: the states of the escalation ladder
(section 4.5). -/
inductive EscState where
  | pendingEscalation
  | notifiedOwner
  | notifiedBackupChannel
  | notifiedPartnerNetwork
  | unresolvedCritical
  | resolved
deriving DecidableEq, Repr

/-- Modelled from the spec: the time-triggered ladder position
(section 4.5) as a function of the minutes elapsed since the job
entered `pending_escalation`; the dwell thresholds are the documented
defaults 30 min, 2 hr, 4 hr, 24 hr, measured continuously from entry. -/
def ladderAt (elapsed : Nat) : EscState :=
  if elapsed < 30 then .pendingEscalation
  else if elapsed < 120 then .notifiedOwner
  else if elapsed < 240 then .notifiedBackupChannel
  else if elapsed < 1440 then .notifiedPartnerNetwork
  else .unresolvedCritical

/-- Modelled from the spec: the Escalation Engine's state for one job
(section 4.5) at absolute minute `now`, given the minute `entered` it
entered `pending_escalation` and the minute it was resolved, if any.
Entering `resolved` cancels every pending timer, so from the resolution
instant on the state is `resolved` regardless of elapsed time. -/
def escalationStateAt (entered : Nat) (resolvedAt : Option Nat)
    (now : Nat) : EscState :=
  match resolvedAt with
  | some r => if r ≤ now then .resolved else ladderAt (now - entered)
  | none => ladderAt (now - entered)

/-! ## Reconciliation Worker (spec section 4.6). -/

/-- The `CallRecord` shape (section 3, external and read-only to this
core): external call id, linked job id (nullable). -/
structure CallRecord where
  callId : String
  linkedJobId : Option String
deriving DecidableEq, Repr

/-- Modelled from the spec: the idempotency key derived from the
external call id (section 4.6). -/
def idempotencyKey (callId : String) : String :=
  "call-" ++ callId

/-- Modelled from the spec: a job synthesized by the Reconciliation
Worker, tagged with its idempotency key. -/
structure SynthJob where
  key : String
  status : String
deriving DecidableEq, Repr

/-- Modelled from the spec: the sweep's handling of one call record
(section 4.6): a record with a linked job is skipped; otherwise a job
is synthesized under the record's idempotency key unless a job with
that key already exists, so repeated sweeps never create duplicates. -/
def sweepRecord (jobs : List SynthJob) (c : CallRecord) : List SynthJob :=
  match c.linkedJobId with
  | some _ => jobs
  | none =>
      if jobs.any (fun j => decide (j.key = idempotencyKey c.callId)) then jobs
      else ⟨idempotencyKey c.callId, "pending"⟩ :: jobs

/-- Modelled from the spec: one reconciliation sweep (section 4.6) over
the call records, synthesizing jobs for unlinked records. -/
def sweep (records : List CallRecord) (jobs : List SynthJob) :
    List SynthJob :=
  records.foldl sweepRecord jobs

/-- The number of synthesized jobs carrying idempotency key `k`. -/
def countKey (jobs : List SynthJob) (k : String) : Nat :=
  (jobs.filter (fun j => decide (j.key = k))).length

/-! ## Theorems -/

/-- C4: every `JobPriority` is one of the four union members, and a
`Job` may carry a null assigned technician id. -/
theorem C4_priority_and_nullable_technician :
    (∀ p : JobPriority, p = .low ∨ p = .normal ∨ p = .urgent ∨ p = .emergency)
    ∧ ∃ j : Job, j.technician_id = none := by
  constructor
  · intro p
    cases p
    · exact Or.inl rfl
    · exact Or.inr (Or.inl rfl)
    · exact Or.inr (Or.inr (Or.inl rfl))
    · exact Or.inr (Or.inr (Or.inr rfl))
  · exact ⟨⟨"j1", "CONF-1", .pending, .normal, "plumbing", none, none, none,
      none, none, none, none, none, none, "2025-01-01"⟩, rfl⟩

/-- C8: in the error paths of `fetchJobs` and `fetchTechnicians`, the
user-visible failure message is the fixed "could not schedule
automatically — pending manual review" sentence for every internal
error, never the raw error itself. -/
theorem C8_user_visible_failure_fixed (stj : JobsPageState)
    (stt : TechniciansPageState) (e1 e2 : ApiError) :
    (fetchJobsOnError stj e1).error =
      "could not schedule automatically — pending manual review"
    ∧ (fetchTechniciansOnError stt e2).error =
      "could not schedule automatically — pending manual review" := ⟨rfl, rfl⟩

/-- C9 counterexample: at the input `"toString"` the lookup resolves to
the truthy member inherited from `Object.prototype`, the `||` fallback
is skipped, and destructuring leaves variant and label undefined — not
the `secondary` variant with `"toString"` as label the claim
promises. -/
theorem C9_statusBadge_prototype_counterexample :
    statusBadge "toString" = (none, none)
    ∧ decide (statusBadge "toString" =
        (some BadgeVariant.secondary, some "toString")) = false := by decide

/-- C9 (amended): each of the eight known statuses maps to its
configured variant and label; a status that is a member name inherited
from `Object.prototype` skips the fallback and yields undefined variant
and label; every other string falls back to the `secondary` variant
with the raw status string as its label. -/
theorem C9_statusBadge_cases :
    (statusBadge "pending" = (some .secondary, some "Pending")
      ∧ statusBadge "scheduled" = (some .default, some "Scheduled")
      ∧ statusBadge "dispatched" = (some .default, some "Dispatched")
      ∧ statusBadge "en_route" = (some .default, some "En Route")
      ∧ statusBadge "in_progress" = (some .default, some "In Progress")
      ∧ statusBadge "completed" = (some .outline, some "Completed")
      ∧ statusBadge "cancelled" = (some .destructive, some "Cancelled")
      ∧ statusBadge "awaiting_parts" = (some .secondary, some "Awaiting Parts"))
    ∧ (∀ status ∈ objectPrototypeKeys, statusBadge status = (none, none))
    ∧ ∀ status : String, status ∉ statusBadgeVariants.map Prod.fst →
        status ∉ objectPrototypeKeys →
        statusBadge status = (some .secondary, some status) := by
  refine ⟨by decide, by decide, ?_⟩
  intro status hstatus hproto
  have hfind : statusBadgeVariants.find? (fun e => decide (e.1 = status)) = none := by
    rw [List.find?_eq_none]
    intro e he
    simp only [decide_eq_true_eq]
    intro hcontra
    exact hstatus (hcontra ▸ List.mem_map_of_mem Prod.fst he)
  simp only [statusBadge, hfind]
  rw [if_neg hproto]

/-- C9 witness: an unknown status string outside both the configured
keys and the inherited member names falls back to the secondary variant
and its own text. -/
theorem C9_statusBadge_cases_witness :
    statusBadge "mystery_status" = (some .secondary, some "mystery_status") :=
  C9_statusBadge_cases.2.2 "mystery_status" (by decide) (by decide)

/-- C10: `handleAddTechnician` issues the create call only when all four
form fields are non-empty; when any of them is the empty string it
makes no call and leaves the technician list, the modal-open flag and
the form state untouched. -/
theorem C10_handleAddTechnician_guard (st : TechniciansPageState)
    (api : CreateOutcome)
    (h : st.newTech.name = "" ∨ st.newTech.email = "" ∨
      st.newTech.phone = "" ∨ st.newTech.password = "") :
    (handleAddTechnician st api).2 = false
    ∧ (handleAddTechnician st api).1.technicians = st.technicians
    ∧ (handleAddTechnician st api).1.addModalOpen = st.addModalOpen
    ∧ (handleAddTechnician st api).1.newTech = st.newTech := by
  simp [handleAddTechnician, if_pos h]

/-- C10 witness: with an empty email field the guard fires on a concrete
page state and the create call is skipped with the state intact. -/
theorem C10_handleAddTechnician_guard_witness :
    (handleAddTechnician
        ⟨[], false, "", true, false, ⟨"Ann", "", "555", "pw"⟩, []⟩
        (.ok [])).2 = false :=
  (C10_handleAddTechnician_guard
      ⟨[], false, "", true, false, ⟨"Ann", "", "555", "pw"⟩, []⟩
      (.ok []) (Or.inr (Or.inl rfl))).1

/-- C3 counterexample: `pending_escalation` is not a value of the
frontend's `JobStatus` union, the repository's Job status domain. -/
theorem C3_pending_escalation_not_in_JobStatus :
    jobStatusStrings.contains "pending_escalation" = false := by decide

/-- C3 (amended): the modelled `schedule` ends with job status
`scheduled` exactly when some candidate's reservation succeeds (no
committed conflict for that technician), and with `pending_escalation`
exactly when every candidate's reservation attempt conflicts — but the
`pending_escalation` value lives only in the engine model, not in the
frontend `JobStatus` domain. -/
theorem C3_schedule_status (j : JobRec) (cands : List String) (s : Store)
    (w : Window) :
    ((schedule j cands s w).1.status = "scheduled" ↔
      ∃ tid ∈ cands, conflictsCommitted s.reservations tid w = false)
    ∧ ((schedule j cands s w).1.status = "pending_escalation" ↔
      ∀ tid ∈ cands, conflictsCommitted s.reservations tid w = true) := by
  induction cands with
  | nil =>
      constructor
      · constructor
        · intro hcontra
          simp [schedule] at hcontra
        · rintro ⟨tid, htid, -⟩
          exact absurd htid (List.not_mem_nil tid)
      · simp [schedule]
  | cons tid rest ih =>
      by_cases hconf : conflictsCommitted s.reservations tid w
      · have hstep : schedule j (tid :: rest) s w = schedule j rest s w := by
          simp [schedule, reserve, hconf]
        constructor
        · rw [hstep, ih.1]
          constructor
          · rintro ⟨t2, ht2, hargs⟩
            exact ⟨t2, List.mem_cons_of_mem tid ht2, hargs⟩
          · rintro ⟨t2, ht2, hargs⟩
            rcases List.mem_cons.mp ht2 with h2 | h2
            · rw [h2] at hargs
              rw [hconf] at hargs
              cases hargs
            · exact ⟨t2, h2, hargs⟩
        · rw [hstep, ih.2]
          constructor
          · intro hall t2 ht2
            rcases List.mem_cons.mp ht2 with h2 | h2
            · rw [h2]; exact hconf
            · exact hall t2 h2
          · intro hall t2 ht2
            exact hall t2 (List.mem_cons_of_mem tid ht2)
      · rw [Bool.not_eq_true] at hconf
        have hstep : schedule j (tid :: rest) s w =
            ({ j with status := "scheduled" },
             { reservations :=
                 ⟨j.id ++ "-res", tid, j.id, w, .committed⟩ :: s.reservations }) := by
          simp [schedule, reserve, hconf]
        constructor
        · rw [hstep]
          constructor
          · intro _
            exact ⟨tid, List.mem_cons_self tid rest, hconf⟩
          · intro _
            rfl
        · rw [hstep]
          constructor
          · intro hcontra
            simp at hcontra
          · intro hall
            have := hall tid (List.mem_cons_self tid rest)
            rw [hconf] at this
            cases this

/-- C5: every technician id produced by the modelled `candidates`
designates a technician of the pool that is active, carries the job's
required skill tag, serves the job's area, and has a working window
containing a feasible slot of the job's estimated duration. -/
theorem C5_candidates_sound (j : JobRec) (techs : List TechnicianRec)
    (tid : String) (h : tid ∈ candidates j techs) :
    ∃ t ∈ techs, t.id = tid ∧ t.active = true
      ∧ (∃ sk ∈ t.skills, sk = j.requiredSkill)
      ∧ (∃ a ∈ t.serviceAreas, a = j.serviceArea)
      ∧ ∃ w ∈ t.workingWindows, w.start + j.durationMinutes ≤ w.stop := by
  rcases List.mem_map.mp h with ⟨t, htmem, hid⟩
  rcases List.mem_filter.mp htmem with ⟨htechs, helig⟩
  simp only [eligible, Bool.and_eq_true, List.any_eq_true,
    decide_eq_true_eq, feasibleIn] at helig
  obtain ⟨⟨⟨hact, hsk⟩, harea⟩, hwin⟩ := helig
  exact ⟨t, htechs, hid, hact, hsk, harea, hwin⟩

/-- C5 witness: on a one-technician pool matching a plumbing job, the
technician id returned by `candidates` satisfies all four filters. -/
theorem C5_candidates_sound_witness :
    ∃ t ∈ [(⟨"t1", ["plumbing"], ["downtown"], true, false,
        [⟨480, 1020⟩]⟩ : TechnicianRec)], t.id = "t1" ∧ t.active = true
      ∧ (∃ sk ∈ t.skills, sk = "plumbing")
      ∧ (∃ a ∈ t.serviceAreas, a = "downtown")
      ∧ ∃ w ∈ t.workingWindows, w.start + 60 ≤ w.stop :=
  C5_candidates_sound
    ⟨"j1", .emergency, "plumbing", "downtown", 60, "pending"⟩
    [⟨"t1", ["plumbing"], ["downtown"], true, false, [⟨480, 1020⟩]⟩]
    "t1" (by decide)

/-- C6: measured continuously from entry into `pending_escalation`, an
unresolved job is in `notified_owner` from the 30-minute mark until the
2-hour mark, in `notified_backup_channel` from the 2-hour mark until
the 4-hour mark, and from the instant a job is resolved its state is
`resolved` whatever the elapsed time, cancelling all further
escalation transitions. -/
theorem C6_escalation_ladder (entered now r : Nat) :
    (entered + 30 ≤ now → now < entered + 120 →
      escalationStateAt entered none now = .notifiedOwner)
    ∧ (entered + 120 ≤ now → now < entered + 240 →
      escalationStateAt entered none now = .notifiedBackupChannel)
    ∧ (r ≤ now → escalationStateAt entered (some r) now = .resolved) := by
  refine ⟨?_, ?_, ?_⟩
  · intro h1 h2
    simp only [escalationStateAt, ladderAt]
    rw [if_neg (by omega), if_pos (by omega)]
  · intro h1 h2
    simp only [escalationStateAt, ladderAt]
    rw [if_neg (by omega), if_neg (by omega), if_pos (by omega)]
  · intro h
    simp only [escalationStateAt, if_pos h]

/-- C6 witness: a job entering the ladder at minute 100 is in
`notified_owner` at minute 130, in `notified_backup_channel` at minute
220, and a resolution at minute 150 makes minute 10000 read
`resolved`. -/
theorem C6_escalation_ladder_witness :
    escalationStateAt 100 none 130 = .notifiedOwner
    ∧ escalationStateAt 100 none 220 = .notifiedBackupChannel
    ∧ escalationStateAt 100 (some 150) 10000 = .resolved :=
  ⟨(C6_escalation_ladder 100 130 0).1 (by decide) (by decide),
   (C6_escalation_ladder 100 220 0).2.1 (by decide) (by decide),
   (C6_escalation_ladder 100 10000 150).2.2 (by decide)⟩

/-- Processing one call record changes the job count at key `k` only by
synthesizing a single job, and only when the record is unlinked, keyed
`k`, and no job with key `k` exists yet. -/
theorem countKey_sweepRecord (jobs : List SynthJob) (c : CallRecord)
    (k : String) :
    countKey (sweepRecord jobs c) k =
      if c.linkedJobId = none ∧ idempotencyKey c.callId = k ∧
          countKey jobs k = 0 then 1 else countKey jobs k := by
  have hany : (jobs.any (fun j => decide (j.key = idempotencyKey c.callId))
      = false) ↔ countKey jobs (idempotencyKey c.callId) = 0 := by
    simp [countKey, List.any_eq_false, List.filter_eq_nil_iff,
      List.length_eq_zero]
  cases hlink : c.linkedJobId with
  | some jid => simp [sweepRecord, hlink]
  | none =>
      by_cases hdup : jobs.any (fun j => decide (j.key = idempotencyKey c.callId))
      · have h0 : countKey jobs (idempotencyKey c.callId) ≠ 0 := by
          intro h
          rw [← hany] at h
          rw [hdup] at h
          cases h
        have hstep : sweepRecord jobs c = jobs := by
          simp [sweepRecord, hlink, hdup]
        rw [hstep, if_neg]
        rintro ⟨-, hb, hcnt⟩
        exact h0 (hb ▸ hcnt)
      · rw [Bool.not_eq_true] at hdup
        have h0 : countKey jobs (idempotencyKey c.callId) = 0 := hany.mp hdup
        have hstep : sweepRecord jobs c =
            ⟨idempotencyKey c.callId, "pending"⟩ :: jobs := by
          simp [sweepRecord, hlink, hdup]
        rw [hstep]
        by_cases hkey : idempotencyKey c.callId = k
        · rw [if_pos ⟨rfl, hkey, hkey ▸ h0⟩]
          have hcons : countKey (⟨idempotencyKey c.callId, "pending"⟩ :: jobs)
              (idempotencyKey c.callId) =
              countKey jobs (idempotencyKey c.callId) + 1 := by
            simp [countKey]
          rw [← hkey]
          omega
        · rw [if_neg (by rintro ⟨-, hb, -⟩; exact hkey hb)]
          simp [countKey, hkey]

/-- Once a job with key `k` exists, a sweep never adds another. -/
theorem countKey_sweep_of_pos (records : List CallRecord)
    (jobs : List SynthJob) (k : String) (h : 1 ≤ countKey jobs k) :
    countKey (sweep records jobs) k = countKey jobs k := by
  induction records generalizing jobs with
  | nil => rfl
  | cons c rest ih =>
      have hstep : countKey (sweepRecord jobs c) k = countKey jobs k := by
        rw [countKey_sweepRecord]
        rw [if_neg]
        rintro ⟨-, -, h0⟩
        omega
      calc countKey (sweep (c :: rest) jobs) k
          = countKey (sweep rest (sweepRecord jobs c)) k := rfl
        _ = countKey (sweepRecord jobs c) k := ih _ (by omega)
        _ = countKey jobs k := hstep

/-- A sweep over records containing an unlinked record keyed `k`
synthesizes exactly one job at `k` when none existed before. -/
theorem countKey_sweep_creates_one (records : List CallRecord)
    (jobs : List SynthJob) (c : CallRecord) (hc : c ∈ records)
    (hun : c.linkedJobId = none)
    (h0 : countKey jobs (idempotencyKey c.callId) = 0) :
    countKey (sweep records jobs) (idempotencyKey c.callId) = 1 := by
  induction records generalizing jobs with
  | nil => exact absurd hc (List.not_mem_nil c)
  | cons c0 rest ih =>
      by_cases htrig : c0.linkedJobId = none ∧
          idempotencyKey c0.callId = idempotencyKey c.callId
      · have hone : countKey (sweepRecord jobs c0) (idempotencyKey c.callId) = 1 := by
          rw [countKey_sweepRecord, if_pos ⟨htrig.1, htrig.2, h0⟩]
        have : countKey (sweep rest (sweepRecord jobs c0)) (idempotencyKey c.callId)
            = countKey (sweepRecord jobs c0) (idempotencyKey c.callId) :=
          countKey_sweep_of_pos rest _ _ (by omega)
        calc countKey (sweep (c0 :: rest) jobs) (idempotencyKey c.callId)
            = countKey (sweep rest (sweepRecord jobs c0)) (idempotencyKey c.callId) := rfl
          _ = 1 := by rw [this, hone]
      · have hzero : countKey (sweepRecord jobs c0) (idempotencyKey c.callId) =
            countKey jobs (idempotencyKey c.callId) := by
          rw [countKey_sweepRecord, if_neg]
          rintro ⟨ha, hb, -⟩
          exact htrig ⟨ha, hb⟩
        have hcrest : c ∈ rest := by
          rcases List.mem_cons.mp hc with h | h
          · exfalso
            apply htrig
            rw [← h]
            exact ⟨hun, rfl⟩
          · exact h
        have := ih (sweepRecord jobs c0) hcrest (by rw [hzero]; exact h0)
        calc countKey (sweep (c0 :: rest) jobs) (idempotencyKey c.callId)
            = countKey (sweep rest (sweepRecord jobs c0)) (idempotencyKey c.callId) := rfl
          _ = 1 := this

/-- C7: sweeping the records once synthesizes exactly one job under the
unlinked record's idempotency key, and running the same sweep a second
time leaves that count at one — the second run has no additional
effect. -/
theorem C7_sweep_idempotent (records : List CallRecord)
    (jobs : List SynthJob) (c : CallRecord) (hc : c ∈ records)
    (hun : c.linkedJobId = none)
    (h0 : countKey jobs (idempotencyKey c.callId) = 0) :
    countKey (sweep records jobs) (idempotencyKey c.callId) = 1
    ∧ countKey (sweep records (sweep records jobs))
        (idempotencyKey c.callId) = 1 := by
  have h1 := countKey_sweep_creates_one records jobs c hc hun h0
  refine ⟨h1, ?_⟩
  rw [countKey_sweep_of_pos records _ _ (by omega), h1]

/-- C7 witness: one unlinked call record, swept twice from an empty job
store, yields a single synthesized job. -/
theorem C7_sweep_idempotent_witness :
    countKey (sweep [⟨"call-77", none⟩] []) (idempotencyKey "call-77") = 1
    ∧ countKey (sweep [⟨"call-77", none⟩] (sweep [⟨"call-77", none⟩] []))
        (idempotencyKey "call-77") = 1 :=
  C7_sweep_idempotent [⟨"call-77", none⟩] [] ⟨"call-77", none⟩
    (by decide) rfl (by decide)

/-- Window overlap is symmetric. -/
theorem overlaps_symm (w1 w2 : Window) : overlaps w1 w2 = overlaps w2 w1 := by
  simp [overlaps, Bool.and_comm]

/-- Unfolding of the pair admissibility check into propositions. -/
theorem okPair_iff (r1 r2 : SlotReservation) :
    okPair r1 r2 = true ↔
      ¬(r1.technicianId = r2.technicianId ∧ r1.status = ResStatus.committed ∧
        r2.status = ResStatus.committed ∧ overlaps r1.window r2.window = true) := by
  simp [okPair, and_assoc]
  tauto

/-- Unfolding of a failed committed-overlap check into propositions. -/
theorem conflictsCommitted_eq_false_iff (rs : List SlotReservation)
    (tid : String) (w : Window) :
    conflictsCommitted rs tid w = false ↔
      ∀ r ∈ rs, ¬(r.technicianId = tid ∧ r.status = ResStatus.committed ∧
        overlaps r.window w = true) := by
  simp [conflictsCommitted, List.any_eq_false, and_assoc]

/-- A reservation that passed the committed-overlap check is admissible
against every reservation of the store. -/
theorem all_okPair_insert (rs : List SlotReservation) (tid : String)
    (w : Window) (jid rid : String)
    (h : conflictsCommitted rs tid w = false) :
    rs.all (okPair ⟨rid, tid, jid, w, .committed⟩) = true := by
  rw [List.all_eq_true]
  intro r hr
  have hr2 := (conflictsCommitted_eq_false_iff rs tid w).mp h r hr
  rw [okPair_iff]
  rintro ⟨htech, -, hstat, hover⟩
  exact hr2 ⟨htech.symm, hstat, by rwa [overlaps_symm]⟩

/-- Admissibility of a pair survives any rewrite of the store that keeps
technician and window and never turns a non-committed reservation into a
committed one. -/
theorem okPair_map (f : SlotReservation → SlotReservation)
    (htid : ∀ r, (f r).technicianId = r.technicianId)
    (hw : ∀ r, (f r).window = r.window)
    (hst : ∀ r, (f r).status = ResStatus.committed →
      r.status = ResStatus.committed)
    (r1 r2 : SlotReservation) (h : okPair r1 r2 = true) :
    okPair (f r1) (f r2) = true := by
  rw [okPair_iff] at h ⊢
  rintro ⟨htech, hstat1, hstat2, hover⟩
  refine h ⟨?_, hst r1 hstat1, hst r2 hstat2, ?_⟩
  · rw [← htid r1, ← htid r2]; exact htech
  · rw [← hw r1, ← hw r2]; exact hover

/-- The double-booking invariant survives any rewrite of the store that
keeps technician and window and never turns a non-committed reservation
into a committed one. -/
theorem noDoubleBook_map (f : SlotReservation → SlotReservation)
    (htid : ∀ r, (f r).technicianId = r.technicianId)
    (hw : ∀ r, (f r).window = r.window)
    (hst : ∀ r, (f r).status = ResStatus.committed →
      r.status = ResStatus.committed)
    (rs : List SlotReservation) (h : noDoubleBook rs = true) :
    noDoubleBook (rs.map f) = true := by
  induction rs with
  | nil => rfl
  | cons r rest ih =>
      rw [List.map_cons]
      rw [noDoubleBook, Bool.and_eq_true] at h ⊢
      obtain ⟨hall, hrest⟩ := h
      refine ⟨?_, ih hrest⟩
      rw [List.all_map, List.all_eq_true]
      intro x hx
      exact okPair_map f htid hw hst r x
        ((List.all_eq_true.mp hall) x hx)

/-- Releasing by reservation id keeps technicians and windows and only
moves statuses away from `committed`. -/
theorem releaseById_preserves (rid : String) (rs : List SlotReservation)
    (h : noDoubleBook rs = true) :
    noDoubleBook (releaseById rid rs) = true := by
  apply noDoubleBook_map _ _ _ _ rs h
  · intro r
    by_cases hr : r.resId = rid <;> simp [hr]
  · intro r
    by_cases hr : r.resId = rid <;> simp [hr]
  · intro r
    by_cases hr : r.resId = rid <;> simp [hr]

/-- C1: the core double-booking invariant — no two committed
reservations of one technician overlap — is preserved by `reserve`
(when it succeeds), by `release`, by the Preemption Controller's
atomic reassignment, and by job cancellation. -/
theorem C1_noDoubleBook_preserved (s : Store) (tid : String) (w : Window)
    (jid rid vrid cjid ejobId erid : String)
    (h : noDoubleBook s.reservations = true) :
    (∀ s2, reserve s tid w jid rid = some s2 →
      noDoubleBook s2.reservations = true)
    ∧ noDoubleBook (release s vrid).reservations = true
    ∧ noDoubleBook (preempt s vrid tid w ejobId erid).reservations = true
    ∧ noDoubleBook (cancelJob s cjid).reservations = true := by
  refine ⟨?_, ?_, ?_, ?_⟩
  · intro s2 hs2
    by_cases hconf : conflictsCommitted s.reservations tid w
    · simp [reserve, hconf] at hs2
    · rw [Bool.not_eq_true] at hconf
      simp only [reserve, hconf, Bool.false_eq_true, if_false,
        Option.some.injEq] at hs2
      rw [← hs2]
      rw [noDoubleBook, Bool.and_eq_true]
      exact ⟨all_okPair_insert s.reservations tid w jid rid hconf, h⟩
  · exact releaseById_preserves vrid s.reservations h
  · by_cases hconf : conflictsCommitted (releaseById vrid s.reservations) tid w
    · simp [preempt, hconf]
      exact h
    · rw [Bool.not_eq_true] at hconf
      have hrel : noDoubleBook (releaseById vrid s.reservations) = true :=
        releaseById_preserves vrid s.reservations h
      simp only [preempt, hconf, Bool.false_eq_true, if_false]
      rw [noDoubleBook, Bool.and_eq_true]
      exact ⟨all_okPair_insert _ tid w ejobId erid hconf, hrel⟩
  · apply noDoubleBook_map _ _ _ _ s.reservations h
    · intro r
      by_cases hr : r.jobId = cjid <;> simp [hr]
    · intro r
      by_cases hr : r.jobId = cjid <;> simp [hr]
    · intro r
      by_cases hr : r.jobId = cjid <;> simp [hr]

/-- C1 witness: on a store holding two non-overlapping committed
reservations of one technician, a preemption of the first keeps the
invariant. -/
theorem C1_noDoubleBook_preserved_witness :
    noDoubleBook (preempt
      (Store.mk [⟨"r1", "t1", "j1", ⟨540, 660⟩, .committed⟩,
                 ⟨"r2", "t1", "j2", ⟨660, 720⟩, .committed⟩])
      "r1" "t1" ⟨540, 600⟩ "je" "re").reservations = true :=
  (C1_noDoubleBook_preserved
    (Store.mk [⟨"r1", "t1", "j1", ⟨540, 660⟩, .committed⟩,
               ⟨"r2", "t1", "j2", ⟨660, 720⟩, .committed⟩])
    "t1" ⟨540, 600⟩ "jx" "rx" "r1" "jc" "je" "re" (by decide)).2.2.1

/-- A reservation list in which some reservation claims a slot for job
`jid` with a non-released status witnesses that the job is assigned. -/
theorem assignedIn_of_mem (rs : List SlotReservation)
    (r : SlotReservation) (hr : r ∈ rs) (hjob : r.jobId = jid)
    (hst : r.status ≠ ResStatus.released) :
    assignedIn rs jid = true := by
  rw [assignedIn, List.any_eq_true]
  refine ⟨r, hr, ?_⟩
  simp [hjob, hst]

/-- C2: the preemption step is all-or-nothing and never leaves the
emergency job and its victim both unassigned: a failed attempt returns
the store exactly as it was, a successful one leaves the emergency job
holding a committed reservation, and at every instant of the
compensating reserve-then-release protocol at least one of the two jobs
holds an active reservation. -/
theorem C2_preempt_atomic (s : Store) (victim : SlotReservation)
    (tid : String) (w : Window) (ejobId erid : String)
    (hv : victim ∈ s.reservations)
    (hst : victim.status = ResStatus.committed)
    (hid : erid ≠ victim.resId) :
    (preemptSucceeds s victim.resId tid w = false →
      preempt s victim.resId tid w ejobId erid = s)
    ∧ (preemptSucceeds s victim.resId tid w = true →
      assignedIn (preempt s victim.resId tid w ejobId erid).reservations
        ejobId = true)
    ∧ ∀ rs ∈ preemptTrace s victim.resId tid w ejobId erid,
        assignedIn rs victim.jobId = true ∨ assignedIn rs ejobId = true := by
  have hvic0 : assignedIn s.reservations victim.jobId = true :=
    assignedIn_of_mem s.reservations victim hv rfl (by rw [hst]; intro hx; cases hx)
  refine ⟨?_, ?_, ?_⟩
  · intro hfail
    simp only [preemptSucceeds, Bool.not_eq_false'] at hfail
    simp [preempt, hfail]
  · intro hok
    simp only [preemptSucceeds, Bool.not_eq_true'] at hok
    simp only [preempt, hok, Bool.false_eq_true, if_false]
    exact assignedIn_of_mem _ ⟨erid, tid, ejobId, w, .committed⟩
      (List.mem_cons_self _ _) rfl (by intro hx; cases hx)
  · intro rs hrs
    have hhead1 : assignedIn
        ((⟨erid, tid, ejobId, w, .held⟩ : SlotReservation) :: s.reservations)
        ejobId = true :=
      assignedIn_of_mem _ ⟨erid, tid, ejobId, w, .held⟩
        (List.mem_cons_self _ _) rfl (by intro hx; cases hx)
    have hrel2 : releaseById victim.resId
          ((⟨erid, tid, ejobId, w, .held⟩ : SlotReservation) :: s.reservations)
        = (⟨erid, tid, ejobId, w, .held⟩ : SlotReservation) ::
          releaseById victim.resId s.reservations := by
      simp only [releaseById, List.map_cons]
      rw [if_neg hid]
    have hhead2 : assignedIn (releaseById victim.resId
        ((⟨erid, tid, ejobId, w, .held⟩ : SlotReservation) :: s.reservations))
        ejobId = true := by
      rw [hrel2]
      exact assignedIn_of_mem _ ⟨erid, tid, ejobId, w, .held⟩
        (List.mem_cons_self _ _) rfl (by intro hx; cases hx)
    have hhead3 : assignedIn
        ((releaseById victim.resId
          ((⟨erid, tid, ejobId, w, .held⟩ : SlotReservation) :: s.reservations)).map
          (fun r => if r.resId = erid then { r with status := .committed } else r))
        ejobId = true := by
      rw [hrel2]
      simp only [List.map_cons, if_pos rfl]
      exact assignedIn_of_mem _ _ (List.mem_cons_self _ _) rfl
        (by intro hx; cases hx)
    by_cases hconf : conflictsCommitted
        (releaseById victim.resId s.reservations) tid w
    · simp only [preemptTrace, hconf, if_true, List.mem_cons,
        List.mem_singleton, List.not_mem_nil, or_false] at hrs
      rcases hrs with h | h | h | h
      · exact h ▸ Or.inl hvic0
      · exact h ▸ Or.inr hhead1
      · exact h ▸ Or.inr hhead2
      · exact h ▸ Or.inl hvic0
    · rw [Bool.not_eq_true] at hconf
      simp only [preemptTrace, hconf, Bool.false_eq_true, if_false,
        List.mem_cons, List.mem_singleton, List.not_mem_nil, or_false] at hrs
      rcases hrs with h | h | h | h
      · exact h ▸ Or.inl hvic0
      · exact h ▸ Or.inr hhead1
      · exact h ▸ Or.inr hhead2
      · exact h ▸ Or.inr hhead3

/-- C2 witness: preempting a committed morning job with an emergency on
the same technician leaves the emergency job holding the slot, and the
victim and the emergency job are jointly covered at every instant of the
protocol trace. -/
theorem C2_preempt_atomic_witness :
    assignedIn (preempt
      (Store.mk [⟨"r1", "t1", "j1", ⟨540, 660⟩, .committed⟩])
      "r1" "t1" ⟨540, 600⟩ "je" "re").reservations "je" = true :=
  (C2_preempt_atomic
    (Store.mk [⟨"r1", "t1", "j1", ⟨540, 660⟩, .committed⟩])
    ⟨"r1", "t1", "j1", ⟨540, 660⟩, .committed⟩
    "t1" ⟨540, 600⟩ "je" "re"
    (List.mem_cons_self _ _) rfl (by decide)).2.1 (by decide)

end ServiceAI
